import Mathlib

/-!
Shallow embedding of `stinger-python-utils` (the MCP bridge in
`src/stinger_python_utils/mcp/server.py` and the message factory in
`src/stinger_python_utils/message_creator.py`).

Python strings are sequences of unicode scalar values, so every string
operation used by the source (`re.sub` character replacement, f-string
concatenation, `startswith`, slicing, `split`, `strip`) is embedded as the
corresponding operation on the `List Char` underlying a Lean `String`.
Opaque Python values (`Any`) are modelled as `Option Nat` (`none` is the
Python `None`); raised exceptions are modelled with `Except String`.
-/

/-- Python value of type `Any`: an opaque value, or `None` (= `none`). -/
abbrev PyVal := Option Nat

/-- Concatenation of Python strings (f-string juxtaposition). -/
def strCat (a b : String) : String :=
  String.mk (a.data ++ b.data)

/-- Python `len(s)`. -/
def strLen (s : String) : Nat :=
  s.data.length

/-- Python `s[n:]`. -/
def strDrop (s : String) (n : Nat) : String :=
  String.mk (s.data.drop n)

/-- Python `s.startswith(t)`. -/
def strStartsWith (s t : String) : Bool :=
  t.data.isPrefixOf s.data

/-- Membership of a character in the regex class `[A-Za-z0-9_]`
(the complement of the class replaced by `_sanitize`). -/
def isAllowedChar (c : Char) : Bool :=
  (decide (65 ≤ c.toNat) && decide (c.toNat ≤ 90)) ||
  (decide (97 ≤ c.toNat) && decide (c.toNat ≤ 122)) ||
  (decide (48 ≤ c.toNat) && decide (c.toNat ≤ 57)) ||
  decide (c.toNat = 95)

/-- `re.sub(r"[^A-Za-z0-9_]", "_", value)`: replace every character
outside `[A-Za-z0-9_]` with an underscore (`server.py`, `_sanitize`). -/
def _sanitize (value : String) : String :=
  String.mk (value.data.map (fun c => if isAllowedChar c then c else '_'))

/-- `f"{_sanitize(plugin_name)}_{_sanitize(instance_id)}"`
(`server.py`, `_instance_key`). -/
def _instance_key (plugin_name instance_id : String) : String :=
  strCat (strCat (_sanitize plugin_name) "_") (_sanitize instance_id)

/-- The per-instance tool-name stem `f"{pn}_{iid}_"` computed by
`_build_tool_list` and `_resolve_tool` (`server.py`). -/
def toolStem (plugin_name instance_id : String) : String :=
  strCat (_instance_key plugin_name instance_id) "_"

/-- Whether a string is a non-empty token over `[A-Za-z0-9_]`, i.e.
matches the regex `[A-Za-z0-9_]+`. -/
def matchesTokenPlus (s : String) : Bool :=
  !s.data.isEmpty && s.data.all isAllowedChar

/-- `SIGNAL_MAILBOX_SIZE = 10` (`server.py`). -/
def SIGNAL_MAILBOX_SIZE : Nat := 10

/-- One element of `SignalMailbox._entries`: the dict
`{"timestamp": ..., "data": ...}` built by `SignalMailbox.append`.
The timestamp and the signal payload dict are opaque values. -/
structure SignalEntry where
  timestamp : Nat
  data : Nat
deriving DecidableEq, Repr

/-- `SignalMailbox`: a `deque(maxlen=SIGNAL_MAILBOX_SIZE)` of entries
(`server.py`).  A fresh mailbox is empty. -/
structure SignalMailbox where
  _entries : List SignalEntry := []
deriving DecidableEq, Repr

/-- `SignalMailbox.append`: `deque.append` with `maxlen`, i.e. push the
timestamped payload at the right end and, if the size now exceeds the
bound, evict the oldest (leftmost) entry. -/
def SignalMailbox.append (mb : SignalMailbox) (now data : Nat) : SignalMailbox :=
  let es := mb._entries ++ [⟨now, data⟩]
  ⟨if SIGNAL_MAILBOX_SIZE < es.length then es.tail else es⟩

/-- Deliver a sequence of `(timestamp, payload)` signals into a mailbox,
one `append` per element, in list order. -/
def SignalMailbox.appendMany (mb : SignalMailbox) (xs : List (Nat × Nat)) : SignalMailbox :=
  xs.foldl (fun m x => m.append x.1 x.2) mb

/-- `SignalDefinition` (`plugin.py`): name and description of a signal. -/
structure SignalDefinition where
  name : String
  description : String := ""
deriving DecidableEq, Repr

/-- `PropertyDefinition` (`plugin.py`).  The JSON-Schema payload is not
modelled: no claim depends on schemas, only on names and the
read-only flag. -/
structure PropertyDefinition where
  name : String
  readonly : Bool := true
  description : String := ""
deriving DecidableEq, Repr

/-- `MethodDefinition` (`plugin.py`).  The JSON-Schema payload is not
modelled: no claim depends on schemas, only on names. -/
structure MethodDefinition where
  name : String
  description : String := ""
deriving DecidableEq, Repr

/-- The data a `StingerMCPPlugin` (`plugin.py`) supplies to the server:
`get_plugin_name()`, `get_signals()`, `get_properties()`, `get_methods()`.
The discoverer and client classes are side-effecting collaborators; the
client handles they produce are modelled as opaque `Nat` handles. -/
structure StingerMCPPlugin where
  plugin_name : String
  signals : List SignalDefinition := []
  properties : List PropertyDefinition := []
  methods : List MethodDefinition := []
deriving DecidableEq, Repr

/-- `InstanceState` (`server.py`): run-time bookkeeping for one
discovered service instance.  `client` is the opaque remote-instance
handle; the two mappings are association lists in creation order. -/
structure InstanceState where
  plugin_name : String
  plugin : StingerMCPPlugin
  instance_id : String
  client : Nat
  signal_mailboxes : List (String × SignalMailbox) := []
  property_cache : List (String × PyVal) := []
deriving DecidableEq, Repr

/-- `StingerMCPServer._instances`: the registry, a `dict` from instance
key to `InstanceState`, modelled as an association list in insertion
order (Python dicts preserve insertion order). -/
abbrev Registry := List (String × InstanceState)

/-- The instance-construction part of `_on_discovered` (`server.py`):
build the `InstanceState` for a newly discovered instance.  For every
declared signal a fresh empty mailbox is created; for every declared
property an initial read is attempted — `read_property` raising
(modelled by `.error`) stores the Python `None` (`none`) in the cache,
exactly as the `except Exception` branch does. -/
def buildInstanceState (plugin : StingerMCPPlugin) (instance_id : String)
    (client : Nat) (readProp : String → Except String PyVal) : InstanceState :=
  { plugin_name := plugin.plugin_name
    plugin := plugin
    instance_id := instance_id
    client := client
    signal_mailboxes := plugin.signals.map (fun sdef => (sdef.name, ({} : SignalMailbox)))
    property_cache := plugin.properties.map (fun pdef =>
      (pdef.name, match readProp pdef.name with
        | .ok v => v
        | .error _ => (none : PyVal))) }

/-- `StingerMCPServer._on_discovered` (`server.py`): if the instance key
is already tracked the event is ignored; otherwise the client handle is
constructed, the `InstanceState` is built, and it is inserted into the
registry.  `client` stands for the handle `client_cls(...)` would
construct and is only used on the untracked path. -/
def _on_discovered (plugin : StingerMCPPlugin) (instance_id : String)
    (client : Nat) (readProp : String → Except String PyVal)
    (reg : Registry) : Registry :=
  let key := _instance_key plugin.plugin_name instance_id
  if (List.lookup key reg).isSome then reg
  else reg ++ [(key, buildInstanceState plugin instance_id client readProp)]

/-- `StingerMCPServer._on_removed` (`server.py`): drop the instance key
from the registry (`dict.pop(key, None)`). -/
def _on_removed (plugin : StingerMCPPlugin) (instance_id : String)
    (reg : Registry) : Registry :=
  let key := _instance_key plugin.plugin_name instance_id
  reg.filter (fun kv => kv.1 ≠ key)

/-- The tool name `f"{pn}_{iid}_{_sanitize(mdef.name)}"` emitted for a
method by `StingerMCPServer._build_tool_list` (`server.py`). -/
def methodToolName (plugin_name instance_id method_name : String) : String :=
  strCat (toolStem plugin_name instance_id) (_sanitize method_name)

/-- The tool name `f"{pn}_{iid}_set_{_sanitize(pdef.name)}"` emitted for
a writable property by `StingerMCPServer._build_tool_list` (`server.py`). -/
def setterToolName (plugin_name instance_id prop_name : String) : String :=
  strCat (strCat (toolStem plugin_name instance_id) "set_") (_sanitize prop_name)

/-- The body of the per-instance iteration of
`StingerMCPServer._resolve_tool` (`server.py`): if the name carries this
instance's stem, try the declared methods first, then — only when the
remainder starts with `"set_"` — the writable properties.  `none` means
this instance does not resolve the name (the outer loop continues). -/
def resolveInState (state : InstanceState) (name : String) : Option (String × String) :=
  let stem := toolStem state.plugin_name state.instance_id
  if strStartsWith name stem then
    let remainder := strDrop name (strLen stem)
    match state.plugin.methods.find? (fun mdef => _sanitize mdef.name == remainder) with
    | some mdef => some ("method", mdef.name)
    | none =>
      if strStartsWith remainder "set_" then
        let prop_token := strDrop remainder 4
        match state.plugin.properties.find?
            (fun pdef => _sanitize pdef.name == prop_token && !pdef.readonly) with
        | some pdef => some ("property", pdef.name)
        | none => none
      else none
  else none

/-- `StingerMCPServer._resolve_tool` (`server.py`): scan the registry's
values in iteration order; the first instance that resolves the name
wins; `none` is the "Unknown tool" outcome. -/
def _resolve_tool : List InstanceState → String → Option (InstanceState × String × String)
  | [], _ => none
  | state :: rest, name =>
    match resolveInState state name with
    | some (kind, item_name) => some (state, kind, item_name)
    | none => _resolve_tool rest name

/-- Lowercase hex digit, as produced by Python's `\uXXXX` escapes. -/
def hexDigit (n : Nat) : Char :=
  Char.ofNat (if n < 10 then 48 + n else 87 + n)

/-- Four lowercase hex digits of a codepoint below `0x10000`. -/
def hexDigits4 (n : Nat) : List Char :=
  [hexDigit (n / 4096 % 16), hexDigit (n / 256 % 16), hexDigit (n / 16 % 16), hexDigit (n % 16)]

/-- The escaping `json.dumps` (default `ensure_ascii=True`) applies to
one character of a string value: the two-character escapes for quote,
backslash and the common control characters, `\u00xx` for the remaining
control characters, `\uxxxx` for non-ASCII BMP characters and a
surrogate pair for astral characters. -/
def escapeJsonChar (c : Char) : List Char :=
  if c = '"' then ['\\', '"']
  else if c = '\\' then ['\\', '\\']
  else if c = '\n' then ['\\', 'n']
  else if c = '\t' then ['\\', 't']
  else if c = '\r' then ['\\', 'r']
  else if c.toNat = 8 then ['\\', 'b']
  else if c.toNat = 12 then ['\\', 'f']
  else if c.toNat < 32 then '\\' :: 'u' :: hexDigits4 c.toNat
  else if c.toNat < 128 then [c]
  else if c.toNat < 65536 then '\\' :: 'u' :: hexDigits4 c.toNat
  else
    let v := c.toNat - 65536
    ('\\' :: 'u' :: hexDigits4 (55296 + v / 1024)) ++ ('\\' :: 'u' :: hexDigits4 (56320 + v % 1024))

/-- `json.dumps` of a Python string value (quotes plus escaping). -/
def jsonStringDump (s : String) : String :=
  String.mk ('"' :: (s.data.map escapeJsonChar).flatten ++ ['"'])

/-- `json.dumps({"status": "error", "error": str(exc)}, default=str)`:
the structured error envelope `_dispatch_tool` returns for a caught
exception (`server.py`). -/
def errorEnvelopeText (msg : String) : String :=
  strCat (strCat "\x7b\"status\": \"error\", \"error\": " (jsonStringDump msg)) "\x7d"

/-- `json.dumps({"status": "ok"})`: the envelope for a method returning
`None` (`server.py`). -/
def okEnvelopeText : String := "\x7b\"status\": \"ok\"\x7d"

/-- `json.dumps({"status": "ok", "property": item_name})`: the envelope
for a successful property write (`server.py`). -/
def setOkEnvelopeText (prop_name : String) : String :=
  strCat (strCat "\x7b\"status\": \"ok\", \"property\": " (jsonStringDump prop_name)) "\x7d"

/-- `json.dumps(value, default=str)` of an opaque Python value: `None`
serializes to `null`, an opaque value to its (opaque) decimal text. -/
def pyDumpsVal : PyVal → String
  | none => "null"
  | some n => toString n

/-- What a plugin `call_method` can produce: a plain value, an
asynchronous `concurrent.futures.Future`, or a raised exception. -/
inductive MethodValue where
  | pyNone
  | model (json : String)
  | plain (v : PyVal)
deriving DecidableEq, Repr

/-- Behaviour of a returned `Future` under `asyncio.wait_for` with the
30-second bound: it completes with a value, completes by raising, or
never completes within the bound. -/
inductive FutureOutcome where
  | completes (v : MethodValue)
  | fails (msg : String)
  | neverCompletes
deriving DecidableEq, Repr

/-- Result of `state.plugin.call_method(...)` in `_dispatch_tool`. -/
inductive CallMethodResult where
  | value (v : MethodValue)
  | future (f : FutureOutcome)
  | raises (msg : String)
deriving DecidableEq, Repr

/-- `str(asyncio.TimeoutError())` — the text of the exception
`asyncio.wait_for` raises on timeout — is the empty string. -/
def TIMEOUT_ERROR_TEXT : String := ""

/-- `_resolve_future` (`server.py`): await the future with the fixed
30-second timeout.  Completion yields the value, a failed future
re-raises its exception, and exceeding the bound raises
`asyncio.TimeoutError` (whose text is empty). -/
def _resolve_future : FutureOutcome → Except String MethodValue
  | .completes v => .ok v
  | .fails msg => .error msg
  | .neverCompletes => .error TIMEOUT_ERROR_TEXT

/-- Serialization of a resolved method result in `_dispatch_tool`
(`server.py`): `model_dump_json()` when available, the ok-envelope for
`None`, otherwise `json.dumps(result, default=str)`. -/
def serializeMethodValue : MethodValue → String
  | .model j => j
  | .pyNone => okEnvelopeText
  | .plain v => pyDumpsVal v

/-- The method branch of `_dispatch_tool` (`server.py`): call the
method; await a returned future with `_resolve_future`; any exception —
from the call or from the await, the timeout included — is caught by the
single `except Exception` and turned into the error envelope. -/
def dispatchMethodText : CallMethodResult → String
  | .raises msg => errorEnvelopeText msg
  | .value v => serializeMethodValue v
  | .future f =>
    match _resolve_future f with
    | .ok v => serializeMethodValue v
    | .error msg => errorEnvelopeText msg

/-- `StingerMCPServer._dispatch_tool` (`server.py`), with the effectful
plugin operations passed as functions: resolve the name (`none` models
the `ValueError("Unknown tool")`), then run the property-write branch or
the method branch and return the text of the single `TextContent`. -/
def _dispatch_tool (reg : List InstanceState) (name : String)
    (callMethod : InstanceState → String → CallMethodResult)
    (writeProp : InstanceState → String → Except String Unit) : Option String :=
  match _resolve_tool reg name with
  | none => none
  | some (state, kind, item_name) =>
    if kind = "property" then
      some (match writeProp state item_name with
        | .ok _ => setOkEnvelopeText item_name
        | .error msg => errorEnvelopeText msg)
    else
      some (dispatchMethodText (callMethod state item_name))

/-- Python `s.strip("/")`: drop `/` characters from both ends. -/
def stripSlashes (s : String) : String :=
  String.mk (((s.data.dropWhile (fun c => c = '/')).reverse.dropWhile (fun c => c = '/')).reverse)

/-- Python `s.split("/")` on the character list: split at every slash,
keeping empty pieces. -/
def splitOnSlashAux : List Char → List Char → List String
  | [], acc => [String.mk acc.reverse]
  | c :: rest, acc =>
    if c = '/' then String.mk acc.reverse :: splitOnSlashAux rest []
    else splitOnSlashAux rest (c :: acc)

/-- `[p for p in parsed.path.strip("/").split("/") if p]` — the
non-empty path segments computed by `_read_resource` (`server.py`) from
the URI's path component. -/
def pathParts (path : String) : List String :=
  (splitOnSlashAux (stripSlashes path).data []).filter (fun p => p != "")

/-- The path-decoding step of `_read_resource` (`server.py`): fewer than
two non-empty segments raise `ValueError` (modelled by `none`);
otherwise the first two segments become `(category, item_name)` and any
further segments are ignored. -/
def decodeResourcePath (path : String) : Option (String × String) :=
  match pathParts path with
  | category :: item_name :: _ => some (category, item_name)
  | _ => none

/-- UTF-8 encoding of one unicode scalar value (`str.encode("utf-8")`),
bytes as `Nat`. -/
def utf8Char (c : Char) : List Nat :=
  let n := c.toNat
  if n < 128 then [n]
  else if n < 2048 then [192 + n / 64, 128 + n % 64]
  else if n < 65536 then [224 + n / 4096, 128 + n / 64 % 64, 128 + n % 64]
  else [240 + n / 262144, 128 + n / 4096 % 64, 128 + n / 64 % 64, 128 + n % 64]

/-- `s.encode("utf-8")` of a Python string. -/
def utf8 (s : String) : List Nat :=
  (s.data.map utf8Char).flatten

/-- The `correlation_id` argument of `MessageCreator.request_message`
(`message_creator.py`): `Union[str, bytes, None]`. -/
inductive CorrelationArg where
  | pyNone
  | str (s : String)
  | bytes (b : List Nat)
deriving DecidableEq, Repr

/-- The fields of a `pyqttier` `Message` that `request_message` sets. -/
structure Message where
  topic : String
  payload : List Nat
  qos : Nat
  retain : Bool
  response_topic : Option String := none
  correlation_data : Option (List Nat) := none
deriving DecidableEq, Repr

/-- `MessageCreator.request_message` (`message_creator.py`).
`freshUuid` is the string `str(uuid.uuid4())` would produce, and
`request_payload_json` the `model_dump_json(by_alias=True)` text of the
request object; the function substitutes the fresh UUID for a `None`
correlation id, then carries a `str` id UTF-8-encoded and a `bytes` id
as-is. -/
def request_message (freshUuid : String) (topic : String)
    (request_payload_json : String) (response_topic : String)
    (correlation_id : CorrelationArg) : Message :=
  let cid := match correlation_id with
    | .pyNone => CorrelationArg.str freshUuid
    | c => c
  { topic := topic
    payload := utf8 request_payload_json
    qos := 1
    retain := false
    response_topic := some response_topic
    correlation_data := match cid with
      | .str s => some (utf8 s)
      | .bytes b => some b
      | .pyNone => none }

/-!
Helper lemmas.
-/

/-- Two strings with the same character data are equal. -/
theorem strExt {a b : String} (h : a.data = b.data) : a = b :=
  congrArg String.mk h

/-- A string concatenation starts with its left part. -/
theorem strStartsWith_strCat (a b : String) : strStartsWith (strCat a b) a = true := by
  simp [strStartsWith, strCat]

/-- Dropping the left part of a concatenation leaves the right part. -/
theorem strDrop_strCat (a b : String) : strDrop (strCat a b) (strLen a) = b := by
  apply strExt
  exact List.drop_left a.data b.data

/-- A double concatenation starts with its leftmost part. -/
theorem strStartsWith_strCat2 (a b c : String) :
    strStartsWith (strCat (strCat a b) c) a = true := by
  simp [strStartsWith, strCat, List.append_assoc]

/-- Dropping the leftmost part of a double concatenation. -/
theorem strDrop_strCat2 (a b c : String) :
    strDrop (strCat (strCat a b) c) (strLen a) = strCat b c := by
  apply strExt
  show ((a.data ++ b.data) ++ c.data).drop a.data.length = b.data ++ c.data
  rw [List.append_assoc]
  exact List.drop_left _ _

/-!
Claim C9 — `_sanitize` output alphabet.
-/

/-- C9 counterexample: on the empty input string, `_sanitize` returns
the empty string, which does not match `[A-Za-z0-9_]+` (the regex
requires at least one character), refuting the claim that every output
is a non-empty token. -/
theorem C9_counterexample :
    _sanitize "" = "" ∧ matchesTokenPlus (_sanitize "") = false := by
  decide

/-- C9 (amended): for every input string, `_sanitize` replaces each
character outside `[A-Za-z0-9_]` with an underscore, preserving length
and position, so the output is a (possibly empty) string over
`[A-Za-z0-9_]` — it matches `[A-Za-z0-9_]+` exactly when the input is
non-empty. -/
theorem C9_theorem (s : String) :
    ((_sanitize s).data.all isAllowedChar = true) ∧
    strLen (_sanitize s) = strLen s ∧
    (∀ i : Nat, (_sanitize s).data[i]? =
      (s.data[i]?).map (fun c => if isAllowedChar c then c else '_')) ∧
    (matchesTokenPlus (_sanitize s) = !s.data.isEmpty) := by
  have hall : (_sanitize s).data.all isAllowedChar = true := by
    show ((s.data.map _).all isAllowedChar) = true
    rw [List.all_map, List.all_eq_true]
    intro c _
    cases hc : isAllowedChar c
    · simp [Function.comp, hc]
      decide
    · simp [Function.comp, hc]
  refine ⟨hall, by simp [strLen, _sanitize], ?_, ?_⟩
  · intro i
    simp [_sanitize]
  · have h2 : (_sanitize s).data.isEmpty = s.data.isEmpty := by
      cases hd : s.data <;> simp [_sanitize, hd]
    unfold matchesTokenPlus
    rw [hall, Bool.and_true, h2]

/-!
Claim C3 — distinctness of encoded tool-name stems.
-/

/-- C3 counterexample: the raw pairs `("a!", "b")` and `("a?", "b")`
differ, yet both sanitize to the stem `"a__b_"`, refuting the claim
that distinct raw (plugin, instance) pairs always produce distinct
encoded stems. -/
theorem C3_counterexample :
    toolStem "a!" "b" = toolStem "a?" "b" ∧ ("a!" : String) ≠ "a?" := by
  decide

/-- C3 (amended): distinct *registry keys* give distinct stems — when
`_instance_key` separates two (plugin, instance) pairs, their encoded
tool-name stems differ; distinct raw pairs, however, may collide after
sanitization. -/
theorem C3_theorem (p1 i1 p2 i2 : String)
    (h : _instance_key p1 i1 ≠ _instance_key p2 i2) :
    toolStem p1 i1 ≠ toolStem p2 i2 := by
  intro he
  apply h
  apply strExt
  have hd : (_instance_key p1 i1).data ++ ('_' :: []) =
      (_instance_key p2 i2).data ++ ('_' :: []) := congrArg String.data he
  exact List.append_cancel_right hd

/-- C3 witness: two instances with different identifiers whose keys
differ get different stems. -/
theorem C3_theorem_witness : toolStem "pl" "i1" ≠ toolStem "pl" "i2" :=
  C3_theorem "pl" "i1" "pl" "i2" (by decide)

/-!
Claims C2 and C5 — encode/decode round trip and method-over-setter
precedence.
-/

/-- Claim C2's plugin: exactly one method `mname` and one writable
property `pname`. -/
def c2Plugin (pn mname pname : String) : StingerMCPPlugin :=
  { plugin_name := pn
    properties := [{ name := pname, readonly := false }]
    methods := [{ name := mname }] }

/-- Claim C2's single tracked instance. -/
def c2State (pn iid mname pname : String) : InstanceState :=
  { plugin_name := pn
    plugin := c2Plugin pn mname pname
    instance_id := iid
    client := 0 }

/-- Dropping the literal `"set_"` from a concatenation starting with it
(`remainder[4:]` in `_resolve_tool`). -/
theorem strDrop_set_lit (x : String) : strDrop (strCat "set_" x) 4 = x := by
  have h : strLen "set_" = 4 := by decide
  rw [← h]
  exact strDrop_strCat "set_" x

/-- C2 counterexample: with method `m = "set_p"` and writable property
`p = "p"`, the encoded setter tool name resolves to the *method*
`set_p`, not to `(instance, "property", "p")` — the round trip claimed
for every `m`, `p` fails when `sanitize(m) = "set_" + sanitize(p)`. -/
theorem C2_counterexample :
    _resolve_tool [c2State "pl" "i1" "set_p" "p"] (setterToolName "pl" "i1" "p") =
      some (c2State "pl" "i1" "set_p" "p", "method", "set_p") ∧
    _resolve_tool [c2State "pl" "i1" "set_p" "p"] (setterToolName "pl" "i1" "p") ≠
      some (c2State "pl" "i1" "set_p" "p", "property", "p") := by
  decide

/-- C2 (amended): the encode/decode round trip holds for a registry
with one tracked instance declaring method `m` and writable property
`p`, *provided* `sanitize(m)` is not literally `"set_" + sanitize(p)`
(method precedence would otherwise shadow the setter): the method tool
name resolves to `(instance, "method", m)` and the setter tool name to
`(instance, "property", p)`. -/
theorem C2_theorem (pn iid mname pname : String)
    (h : _sanitize mname ≠ strCat "set_" (_sanitize pname)) :
    _resolve_tool [c2State pn iid mname pname] (methodToolName pn iid mname) =
      some (c2State pn iid mname pname, "method", mname) ∧
    _resolve_tool [c2State pn iid mname pname] (setterToolName pn iid pname) =
      some (c2State pn iid mname pname, "property", pname) := by
  constructor
  · simp [_resolve_tool, resolveInState, c2State, c2Plugin, methodToolName,
      strStartsWith_strCat, strDrop_strCat]
  · simp [_resolve_tool, resolveInState, c2State, c2Plugin, setterToolName,
      strStartsWith_strCat2, strDrop_strCat2, strStartsWith_strCat,
      strDrop_set_lit, beq_eq_false_iff_ne.mpr h]

/-- C2 witness: the round trip at plugin `pl`, instance `i1`, method
`go`, property `bright`. -/
theorem C2_theorem_witness :
    _resolve_tool [c2State "pl" "i1" "go" "bright"] (methodToolName "pl" "i1" "go") =
      some (c2State "pl" "i1" "go" "bright", "method", "go") ∧
    _resolve_tool [c2State "pl" "i1" "go" "bright"] (setterToolName "pl" "i1" "bright") =
      some (c2State "pl" "i1" "go" "bright", "property", "bright") :=
  C2_theorem "pl" "i1" "go" "bright" (by decide)

/-- C5: for a tracked instance declaring a method whose sanitized name
is `set_<x>` (and a writable property whose sanitized name is `<x>`),
the tool name `<stem>set_<x>` resolves to a *method* — methods are
scanned before the property-setter branch, so the method shadows the
setter. -/
theorem C5_theorem (state : InstanceState) (x : String)
    (m : MethodDefinition) (p : PropertyDefinition)
    (hm : m ∈ state.plugin.methods)
    (hmname : _sanitize m.name = strCat "set_" x)
    (_hp : p ∈ state.plugin.properties)
    (_hpname : _sanitize p.name = x)
    (_hpw : p.readonly = false) :
    ∃ mdef : MethodDefinition, mdef ∈ state.plugin.methods ∧
      _sanitize mdef.name = strCat "set_" x ∧
      _resolve_tool [state]
        (strCat (toolStem state.plugin_name state.instance_id) (strCat "set_" x)) =
        some (state, "method", mdef.name) := by
  have hsome : (state.plugin.methods.find?
      (fun mdef => _sanitize mdef.name == strCat "set_" x)).isSome := by
    rw [List.find?_isSome]
    exact ⟨m, hm, by simp [hmname]⟩
  obtain ⟨mdef, hfind⟩ := Option.isSome_iff_exists.mp hsome
  refine ⟨mdef, List.mem_of_find?_eq_some hfind, ?_, ?_⟩
  · have hpred := List.find?_some hfind
    simpa using hpred
  · simp [_resolve_tool, resolveInState, strStartsWith_strCat, strDrop_strCat, hfind]

/-- Claim C5's concrete instance: method `set_p`, writable property `p`. -/
def c5State : InstanceState :=
  { plugin_name := "pl"
    plugin := { plugin_name := "pl"
                properties := [{ name := "p", readonly := false }]
                methods := [{ name := "set_p" }] }
    instance_id := "i1"
    client := 0 }

/-- C5 witness: the shadowing at the concrete instance `c5State`. -/
theorem C5_theorem_witness :
    ∃ mdef : MethodDefinition, mdef ∈ c5State.plugin.methods ∧
      _sanitize mdef.name = strCat "set_" "p" ∧
      _resolve_tool [c5State]
        (strCat (toolStem c5State.plugin_name c5State.instance_id) (strCat "set_" "p")) =
        some (c5State, "method", mdef.name) :=
  C5_theorem c5State "p" { name := "set_p" } { name := "p", readonly := false }
    (by decide) (by decide) (by decide) (by decide) (by decide)

/-!
Claim C6 — mailbox bound and eviction order.
-/

/-- The mailbox entry recorded for an appended `(timestamp, payload)`. -/
def mkEntry (x : Nat × Nat) : SignalEntry := ⟨x.1, x.2⟩

/-- One `append` on a mailbox within its bound keeps exactly the last
`SIGNAL_MAILBOX_SIZE` of the extended entry list. -/
theorem append_entries_eq (mb : SignalMailbox) (t d : Nat)
    (h : mb._entries.length ≤ SIGNAL_MAILBOX_SIZE) :
    (mb.append t d)._entries =
      (mb._entries ++ [SignalEntry.mk t d]).drop
        (mb._entries.length + 1 - SIGNAL_MAILBOX_SIZE) := by
  simp only [SignalMailbox.append, SIGNAL_MAILBOX_SIZE] at h ⊢
  split
  · next hc =>
    rw [← List.drop_one]
    congr 1
    simp only [List.length_append, List.length_cons, List.length_nil] at hc
    omega
  · next hc =>
    have h0 : mb._entries.length + 1 - 10 = 0 := by
      simp only [List.length_append, List.length_cons, List.length_nil] at hc
      omega
    rw [h0, List.drop_zero]

/-- Folding a sequence of appends over a mailbox within its bound keeps
exactly the last `SIGNAL_MAILBOX_SIZE` entries of the full history. -/
theorem appendMany_entries (xs : List (Nat × Nat)) (mb : SignalMailbox)
    (h : mb._entries.length ≤ SIGNAL_MAILBOX_SIZE) :
    (mb.appendMany xs)._entries =
      (mb._entries ++ xs.map mkEntry).drop
        (mb._entries.length + xs.length - SIGNAL_MAILBOX_SIZE) := by
  induction xs generalizing mb with
  | nil =>
    show mb._entries = _
    rw [List.map_nil, List.append_nil, List.length_nil, Nat.add_zero,
      Nat.sub_eq_zero_of_le h, List.drop_zero]
  | cons x rest ih =>
    have hstep := append_entries_eq mb x.1 x.2 h
    have hlen' : (mb.append x.1 x.2)._entries.length ≤ SIGNAL_MAILBOX_SIZE := by
      rw [hstep]
      simp only [List.length_drop, List.length_append, List.length_cons,
        List.length_nil, SIGNAL_MAILBOX_SIZE] at h ⊢
      omega
    have hrec := ih (mb.append x.1 x.2) hlen'
    show (SignalMailbox.appendMany (mb.append x.1 x.2) rest)._entries = _
    rw [hrec, hstep]
    rw [List.length_drop]
    rw [← List.drop_append_of_le_length
      (by simp only [List.length_append, List.length_cons, List.length_nil]; omega)]
    rw [List.drop_drop]
    simp only [mkEntry, List.map_cons, List.length_cons, List.length_append,
      List.length_nil, SIGNAL_MAILBOX_SIZE] at h ⊢
    rw [List.append_assoc, List.singleton_append]
    congr 1
    omega

/-- The mailbox never exceeds its bound: any append sequence on a
mailbox within the bound stays within it. -/
theorem appendMany_length_le (ys : List (Nat × Nat)) (mb : SignalMailbox)
    (h : mb._entries.length ≤ SIGNAL_MAILBOX_SIZE) :
    (mb.appendMany ys)._entries.length ≤ SIGNAL_MAILBOX_SIZE := by
  rw [appendMany_entries ys mb h]
  simp only [List.length_drop, List.length_append, List.length_map,
    SIGNAL_MAILBOX_SIZE] at h ⊢
  omega

/-- C6: appending `N + k` payloads (`N = SIGNAL_MAILBOX_SIZE = 10`,
`k > 0`) to a fresh mailbox leaves exactly `N` entries — the last `N`
appended payloads in append order, oldest first — and every
intermediate mailbox (any prefix of the append sequence) holds at most
`N` entries. -/
theorem C6_theorem (xs : List (Nat × Nat)) (k : Nat)
    (hlen : xs.length = SIGNAL_MAILBOX_SIZE + k) (_hk : 0 < k) :
    ((SignalMailbox.appendMany {} xs)._entries = (xs.drop k).map mkEntry) ∧
    (SignalMailbox.appendMany {} xs)._entries.length = SIGNAL_MAILBOX_SIZE ∧
    ((SignalMailbox.appendMany {} xs)._entries.map (fun e => e.data) =
      (xs.drop k).map (fun x => x.2)) ∧
    (∀ ys : List (Nat × Nat), ys <+: xs →
      (SignalMailbox.appendMany {} ys)._entries.length ≤ SIGNAL_MAILBOX_SIZE) := by
  have h1 : ((SignalMailbox.appendMany {} xs)._entries = (xs.drop k).map mkEntry) := by
    rw [appendMany_entries xs {} (by simp [SIGNAL_MAILBOX_SIZE])]
    show (([] : List SignalEntry) ++ xs.map mkEntry).drop
      (([] : List SignalEntry).length + xs.length - SIGNAL_MAILBOX_SIZE) = _
    rw [List.nil_append, List.length_nil, Nat.zero_add, hlen,
      Nat.add_sub_cancel_left, List.map_drop]
  refine ⟨h1, ?_, ?_, ?_⟩
  · rw [h1]
    simp only [List.length_map, List.length_drop, hlen, SIGNAL_MAILBOX_SIZE]
    omega
  · rw [h1, List.map_map]
    have hfun : ((fun e : SignalEntry => e.data) ∘ mkEntry) = (fun x : Nat × Nat => x.2) :=
      funext (fun x => rfl)
    rw [hfun]
  · intro ys _
    exact appendMany_length_le ys {} (by simp [SIGNAL_MAILBOX_SIZE])

/-- C6 witness: twelve appended payloads (`k = 2`) leave the last ten,
and a five-payload prefix stays within the bound. -/
theorem C6_theorem_witness :
    ((SignalMailbox.appendMany {}
        [(0, 100), (1, 101), (2, 102), (3, 103), (4, 104), (5, 105),
         (6, 106), (7, 107), (8, 108), (9, 109), (10, 110), (11, 111)])._entries =
      ([(2, 102), (3, 103), (4, 104), (5, 105), (6, 106), (7, 107),
        (8, 108), (9, 109), (10, 110), (11, 111)] : List (Nat × Nat)).map mkEntry) ∧
    (SignalMailbox.appendMany {}
        [(0, 100), (1, 101), (2, 102), (3, 103), (4, 104), (5, 105),
         (6, 106), (7, 107), (8, 108), (9, 109), (10, 110), (11, 111)])._entries.length =
      SIGNAL_MAILBOX_SIZE := by
  have h := C6_theorem
    [(0, 100), (1, 101), (2, 102), (3, 103), (4, 104), (5, 105),
     (6, 106), (7, 107), (8, 108), (9, 109), (10, 110), (11, 111)] 2
    (by decide) (by decide)
  exact ⟨h.1, h.2.1⟩

/-!
Claim C7 — duplicate-appearance idempotence.
-/

/-- A key that `lookup` does not find occurs in no registry entry. -/
theorem filter_key_nil {reg : Registry} {key : String}
    (h : List.lookup key reg = none) :
    reg.filter (fun kv => kv.1 = key) = [] := by
  rw [List.filter_eq_nil_iff]
  intro kv hkv
  have hne := List.lookup_eq_none_iff.mp h kv hkv
  simp only [bne_iff_ne, ne_eq] at hne
  simp only [decide_eq_true_eq]
  exact fun hh => hne hh.symm

/-- C7: delivering "appeared" twice for the same (plugin, instance) key
is idempotent — the second event (even one that would construct a
different client handle `c2` or read different property values) leaves
the registry unchanged, the key still maps to the `InstanceState` built
by the first event (same client handle, mailboxes and cache), and the
registry holds exactly one entry for the key. -/
theorem C7_theorem (plugin : StingerMCPPlugin) (iid : String) (c1 c2 : Nat)
    (rp1 rp2 : String → Except String PyVal) (reg : Registry)
    (hfresh : List.lookup (_instance_key plugin.plugin_name iid) reg = none) :
    (_on_discovered plugin iid c2 rp2 (_on_discovered plugin iid c1 rp1 reg) =
      _on_discovered plugin iid c1 rp1 reg) ∧
    (List.lookup (_instance_key plugin.plugin_name iid)
        (_on_discovered plugin iid c2 rp2 (_on_discovered plugin iid c1 rp1 reg)) =
      some (buildInstanceState plugin iid c1 rp1)) ∧
    ((_on_discovered plugin iid c1 rp1 reg).filter
        (fun kv => kv.1 = _instance_key plugin.plugin_name iid)).length = 1 := by
  have hlookA : List.lookup (_instance_key plugin.plugin_name iid)
      (reg ++ [(_instance_key plugin.plugin_name iid,
        buildInstanceState plugin iid c1 rp1)]) =
      some (buildInstanceState plugin iid c1 rp1) := by
    rw [List.lookup_append, hfresh, List.lookup_cons_self]
    rfl
  have hreg1 : _on_discovered plugin iid c1 rp1 reg =
      reg ++ [(_instance_key plugin.plugin_name iid,
        buildInstanceState plugin iid c1 rp1)] := by
    simp [_on_discovered, hfresh]
  have hsecond : _on_discovered plugin iid c2 rp2 (_on_discovered plugin iid c1 rp1 reg) =
      _on_discovered plugin iid c1 rp1 reg := by
    rw [hreg1]
    simp [_on_discovered, hlookA]
  refine ⟨hsecond, ?_, ?_⟩
  · rw [hsecond, hreg1]
    exact hlookA
  · rw [hreg1, List.filter_append, filter_key_nil hfresh]
    simp [List.filter]

/-- C7 witness: duplicate appearance of `pl/i1` on an empty registry,
with a different client handle the second time. -/
theorem C7_theorem_witness :
    (_on_discovered { plugin_name := "pl" } "i1" 2 (fun _ => .ok none)
        (_on_discovered { plugin_name := "pl" } "i1" 1 (fun _ => .ok none) []) =
      _on_discovered { plugin_name := "pl" } "i1" 1 (fun _ => .ok none) []) ∧
    (List.lookup (_instance_key "pl" "i1")
        (_on_discovered { plugin_name := "pl" } "i1" 2 (fun _ => .ok none)
          (_on_discovered { plugin_name := "pl" } "i1" 1 (fun _ => .ok none) [])) =
      some (buildInstanceState { plugin_name := "pl" } "i1" 1 (fun _ => .ok none))) ∧
    ((_on_discovered { plugin_name := "pl" } "i1" 1 (fun _ => .ok none) []).filter
        (fun kv => kv.1 = _instance_key "pl" "i1")).length = 1 :=
  C7_theorem { plugin_name := "pl" } "i1" 1 2 (fun _ => .ok none) (fun _ => .ok none) [] rfl

/-!
Claim C4 — failed initial property read at instance appearance.
-/

/-- Looking a declared name up in a cache built by mapping over the
declarations yields the mapped value of that name. -/
theorem lookup_cache (props : List PropertyDefinition)
    (f : String → PyVal) (pname : String)
    (hmem : pname ∈ props.map (fun p => p.name)) :
    List.lookup pname (props.map (fun p => (p.name, f p.name))) = some (f pname) := by
  induction props with
  | nil => simp at hmem
  | cons p rest ih =>
    rw [List.map_cons, List.lookup_cons]
    by_cases h : pname = p.name
    · simp [h]
    · have hb : (pname == p.name) = false := beq_eq_false_iff_ne.mpr h
      simp only [hb]
      apply ih
      have hmem' := hmem
      rw [List.map_cons, List.mem_cons] at hmem'
      rcases hmem' with h1 | h1
      · exact absurd h1 h
      · exact h1

/-- Claim C4's plugin: one declared property `p` (read-only by
default — the initial read happens for every declared property). -/
def c4Plugin : StingerMCPPlugin :=
  { plugin_name := "pl", properties := [{ name := "p" }] }

/-- A property reader whose initial read always raises. -/
def c4Read : String → Except String PyVal := fun _ => .error "boom"

/-- C4 counterexample: when the initial read of `p` raises, the
onboarded instance's property cache *does* contain the key `p` — mapped
to the Python `None` — rather than having the key absent as claimed
(the `except` branch executes `state.property_cache[pdef.name] = None`);
the instance is still tracked. -/
theorem C4_counterexample :
    List.lookup "p" (buildInstanceState c4Plugin "i1" 7 c4Read).property_cache =
      some none ∧
    List.lookup "p" (buildInstanceState c4Plugin "i1" 7 c4Read).property_cache ≠
      none ∧
    List.lookup (_instance_key "pl" "i1") (_on_discovered c4Plugin "i1" 7 c4Read []) =
      some (buildInstanceState c4Plugin "i1" 7 c4Read) := by
  refine ⟨rfl, by decide, rfl⟩

/-- C4 (amended): if the initial read of a declared property raises at
instance-appearance time, the onboarded instance's property cache maps
that property to the Python `None` (the key is *present* with a null
value), and the instance is tracked in the registry. -/
theorem C4_theorem (plugin : StingerMCPPlugin) (iid : String) (client : Nat)
    (readProp : String → Except String PyVal) (reg : Registry) (pname msg : String)
    (hfresh : List.lookup (_instance_key plugin.plugin_name iid) reg = none)
    (hmem : pname ∈ plugin.properties.map (fun p => p.name))
    (hfail : readProp pname = .error msg) :
    (List.lookup (_instance_key plugin.plugin_name iid)
        (_on_discovered plugin iid client readProp reg) =
      some (buildInstanceState plugin iid client readProp)) ∧
    List.lookup pname (buildInstanceState plugin iid client readProp).property_cache =
      some none := by
  have hreg1 : _on_discovered plugin iid client readProp reg =
      reg ++ [(_instance_key plugin.plugin_name iid,
        buildInstanceState plugin iid client readProp)] := by
    simp [_on_discovered, hfresh]
  constructor
  · rw [hreg1, List.lookup_append, hfresh, List.lookup_cons_self]
    rfl
  · have hl := lookup_cache plugin.properties
      (fun n => match readProp n with | .ok v => v | .error _ => (none : PyVal))
      pname hmem
    simp only [hfail] at hl
    exact hl

/-- C4 witness: the amended claim at the concrete failing reader. -/
theorem C4_theorem_witness :
    (List.lookup (_instance_key c4Plugin.plugin_name "i1")
        (_on_discovered c4Plugin "i1" 7 c4Read []) =
      some (buildInstanceState c4Plugin "i1" 7 c4Read)) ∧
    List.lookup "p" (buildInstanceState c4Plugin "i1" 7 c4Read).property_cache =
      some none :=
  C4_theorem c4Plugin "i1" 7 c4Read [] "p" "boom" rfl (by decide) rfl

/-!
Claim C1 — timeout versus execution error in `_dispatch_tool`.
-/

/-- Claim C1's tracked instance: one method `go`. -/
def c1State : InstanceState :=
  { plugin_name := "pl"
    plugin := { plugin_name := "pl", methods := [{ name := "go" }] }
    instance_id := "i1"
    client := 0 }

/-- C1 counterexample: invoking the method tool when the call returns a
never-completing future produces *exactly the same* protocol response
as invoking it when the call raises an exception with empty text — both
land in the one `except Exception` branch and yield the error envelope
with the (empty) exception text, so the two failure modes are not
protocol-distinguishable. -/
theorem C1_counterexample :
    (_dispatch_tool [c1State] "pl_i1_go"
        (fun _ _ => .future .neverCompletes) (fun _ _ => .ok ()) =
      _dispatch_tool [c1State] "pl_i1_go"
        (fun _ _ => .raises "") (fun _ _ => .ok ())) ∧
    _dispatch_tool [c1State] "pl_i1_go"
        (fun _ _ => .future .neverCompletes) (fun _ _ => .ok ()) =
      some (errorEnvelopeText "") := by
  exact ⟨rfl, rfl⟩

/-- C1 (amended): when a tool resolves to a method whose call returns a
future that does not complete within the fixed 30-second bound, the
dispatcher responds with the structured error envelope
`{"status": "error", "error": str(exc)}` carrying the timeout
exception's (empty) text — the *same envelope form* as a
capability-execution error, distinguishable only through the error
text and not in general. -/
theorem C1_theorem (reg : List InstanceState) (name : String)
    (callMethod : InstanceState → String → CallMethodResult)
    (writeProp : InstanceState → String → Except String Unit)
    (state : InstanceState) (item_name : String)
    (hres : _resolve_tool reg name = some (state, "method", item_name))
    (hcall : callMethod state item_name = .future .neverCompletes) :
    _dispatch_tool reg name callMethod writeProp =
      some (errorEnvelopeText TIMEOUT_ERROR_TEXT) := by
  simp [_dispatch_tool, hres, hcall, dispatchMethodText, _resolve_future]

/-- C1 witness: the amended claim at the concrete instance `c1State`. -/
theorem C1_theorem_witness :
    _dispatch_tool [c1State] "pl_i1_go"
      (fun _ _ => .future .neverCompletes) (fun _ _ => .ok ()) =
      some (errorEnvelopeText TIMEOUT_ERROR_TEXT) :=
  C1_theorem [c1State] "pl_i1_go" (fun _ _ => .future .neverCompletes)
    (fun _ _ => .ok ()) c1State "go" (by decide) rfl

/-!
Claim C8 — resource-URI path decoding.
-/

/-- C8 counterexample: the path `/a/b/c` has three non-empty segments —
not exactly two — yet `_read_resource`'s decode succeeds, taking the
first two segments and ignoring the rest; only *fewer* than two
segments is rejected. -/
theorem C8_counterexample :
    (pathParts "/a/b/c").length = 3 ∧
    decodeResourcePath "/a/b/c" = some ("a", "b") := by
  decide

/-- C8 (amended): the decode succeeds exactly when the path has at
least two non-empty segments; the first two become (category, item) and
any extra segments are ignored; fewer than two segments is a decode
error. -/
theorem C8_theorem (path : String) :
    ((decodeResourcePath path).isSome ↔ 2 ≤ (pathParts path).length) ∧
    (∀ category item rest, pathParts path = category :: item :: rest →
      decodeResourcePath path = some (category, item)) ∧
    ((pathParts path).length < 2 → decodeResourcePath path = none) := by
  rcases hp : pathParts path with _ | ⟨c, _ | ⟨i, rest⟩⟩
  · refine ⟨by simp [decodeResourcePath, hp], ?_,
      fun _ => by simp [decodeResourcePath, hp]⟩
    intro category item rest2 hcons
    exact List.noConfusion hcons
  · refine ⟨by simp [decodeResourcePath, hp], ?_,
      fun _ => by simp [decodeResourcePath, hp]⟩
    intro category item rest2 hcons
    injection hcons with h1 h2
    exact List.noConfusion h2
  · refine ⟨?_, ?_, ?_⟩
    · simp only [decodeResourcePath, hp, Option.isSome_some, List.length_cons, true_iff]
      omega
    · intro category item rest2 hcons
      injection hcons with h1 h2
      injection h2 with h2a h2b
      subst h1
      subst h2a
      simp [decodeResourcePath, hp]
    · intro hlen
      simp only [List.length_cons] at hlen
      omega

/-- C8 witness: decode of `/a/b` succeeds with (a, b); decode of the
one-segment path `/a` fails. -/
theorem C8_theorem_witness :
    decodeResourcePath "/a/b" = some ("a", "b") ∧ decodeResourcePath "/a" = none :=
  ⟨( C8_theorem "/a/b").2.1 "a" "b" [] (by decide), ( C8_theorem "/a").2.2 (by decide)⟩

/-!
Claim C10 — `request_message` correlation data.
-/

/-- C10: every message built by `request_message` carries non-`None`
correlation data: a `None` correlation id is replaced by the freshly
generated UUID string, UTF-8 encoded; a `str` id is carried UTF-8
encoded; a `bytes` id is carried as-is. -/
theorem C10_theorem (freshUuid topic payload_json response_topic : String)
    (correlation_id : CorrelationArg) :
    ((request_message freshUuid topic payload_json response_topic
        correlation_id).correlation_data =
      some (match correlation_id with
        | .pyNone => utf8 freshUuid
        | .str s => utf8 s
        | .bytes b => b)) ∧
    (request_message freshUuid topic payload_json response_topic
        correlation_id).correlation_data ≠ none := by
  cases correlation_id <;> exact ⟨rfl, fun h => Option.noConfusion h⟩
